import Mathlib

/-!
Shallow embedding of the two specified components of src/api_tester.py:
the variable substitution engine (substitute_vars, lines 53-63) and the
assertion evaluator (run_test, lines 172-204).  Strings are modelled as
Lean strings (lists of characters); Python string primitives used by the
source (split, strip, replace, startswith, int(), str()) are embedded as
executable Lean functions below.  JSON values are modelled by an inductive
type whose numbers are integers (float bodies are out of scope of every
claim), and a response is a status code together with an optional parsed
JSON body, where a missing body models a response whose json() call raises.
-/

/-- The apostrophe character, used by Python repr of strings and by the
quote-stripping character set of str.strip. -/
def quoteChar : Char := Char.ofNat 39

/-- Word characters of the regex class used by the substitution pattern:
ASCII letters, digits and underscore (Unicode word characters beyond ASCII
are not exercised by any claim and are not modelled). -/
def wordChar (c : Char) : Bool := c.isAlphanum || c = '_'

/-- Whitespace characters stripped by Python str.strip with no argument
(ASCII subset; Unicode whitespace is not exercised by any claim). -/
def isPySpace (c : Char) : Bool :=
  c = ' ' || c = Char.ofNat 9 || c = Char.ofNat 10 || c = Char.ofNat 13 ||
  c = Char.ofNat 11 || c = Char.ofNat 12

/-- The two characters of the set passed to str.strip by the evaluator:
a single quote and a double quote. -/
def isQuoteChar (c : Char) : Bool := c = quoteChar || c = '"'

/-- Python str.strip with no argument: drop whitespace from both ends. -/
def pyTrim (cs : List Char) : List Char :=
  ((cs.dropWhile isPySpace).reverse.dropWhile isPySpace).reverse

/-- Python str.strip with the quote character set: drop every leading and
trailing quote character (single or double) from both ends. -/
def stripQuotes (cs : List Char) : List Char :=
  ((cs.dropWhile isQuoteChar).reverse.dropWhile isQuoteChar).reverse

/-- Python split on the two-character separator of two equals signs,
exactly as assertion.split applies it: every non-overlapping occurrence,
scanned left to right, separates two segments. -/
def splitEqs : List Char → List (List Char)
  | [] => [[]]
  | [c] => [[c]]
  | c :: d :: rest =>
    if c = '=' ∧ d = '=' then [] :: splitEqs rest
    else
      match splitEqs (d :: rest) with
      | g :: gs => (c :: g) :: gs
      | [] => [[c]]

/-- Python split on a dot, as applied to the assertion path. -/
def splitDots : List Char → List (List Char)
  | [] => [[]]
  | c :: rest =>
    if c = '.' then [] :: splitDots rest
    else
      match splitDots rest with
      | g :: gs => (c :: g) :: gs
      | [] => [[c]]

/-- Python str.replace of the five-character substring b o d y dot by the
empty string: every occurrence is removed, scanning left to right. -/
def removeBodyDot : List Char → List Char
  | 'b' :: 'o' :: 'd' :: 'y' :: '.' :: rest => removeBodyDot rest
  | c :: rest => c :: removeBodyDot rest
  | [] => []

/-- Decimal value of a digit run. -/
def digitsToNat (ds : List Char) : Nat :=
  ds.foldl (fun acc c => acc * 10 + (c.toNat - 48)) 0

/-- Python int() applied to an already stripped string: an optional sign
followed by one or more ASCII digits (underscore grouping and Unicode
digits are not exercised by any claim and are not modelled); any other
shape raises ValueError, modelled as none. -/
def pyInt (cs : List Char) : Option Int :=
  match cs with
  | '+' :: ds =>
    if ds ≠ [] ∧ ds.all Char.isDigit then some (digitsToNat ds : Int) else none
  | '-' :: ds =>
    if ds ≠ [] ∧ ds.all Char.isDigit then some (-(digitsToNat ds : Int)) else none
  | ds =>
    if ds ≠ [] ∧ ds.all Char.isDigit then some (digitsToNat ds : Int) else none

/-- One attempt of the substitution regex at the head of the input: an
opening double brace, a maximal nonempty run of word characters, then a
closing double brace.  Returns the captured name and the remainder after
the match, or none when the pattern does not match here. -/
def parseTok (cs : List Char) : Option (List Char × List Char) :=
  match cs with
  | '{' :: '{' :: t =>
    match t.dropWhile wordChar with
    | '}' :: '}' :: u =>
      if t.takeWhile wordChar = [] then none else some (t.takeWhile wordChar, u)
    | _ => none
  | _ => none

/-- The replacement function of substitute_vars: os.getenv of the captured
name with the whole match as the default, so an unbound name leaves the
token verbatim. -/
def envSub (env : List (String × String)) (w : List Char) : List Char :=
  match List.lookup (String.mk w) env with
  | some v => v.data
  | none => '{' :: '{' :: (w ++ ['}', '}'])

/-- Fueled left-to-right scan of re.sub: at each position either the
pattern matches (replace it, continue after the match, never re-scanning
the replacement) or the character passes through.  The fuel only bounds
the recursion; one unit per consumed character always suffices. -/
def substFuel (env : List (String × String)) : Nat → List Char → List Char
  | 0, cs => cs
  | _ + 1, [] => []
  | f + 1, c :: rest =>
    match parseTok (c :: rest) with
    | some (w, u) => envSub env w ++ substFuel env f u
    | none => c :: substFuel env f rest

/-- re.sub of the placeholder pattern over a character list. -/
def substListChars (env : List (String × String)) (cs : List Char) : List Char :=
  substFuel env cs.length cs

/-- substitute_vars of src/api_tester.py lines 53-63, with the process
environment made an explicit parameter. -/
def substitute_vars (env : List (String × String)) (text : String) : String :=
  String.mk (substListChars env text.data)

/-- Decidable check that no position of the string starts a placeholder
match. -/
def noPlaceholder (cs : List Char) : Bool :=
  (List.range (cs.length + 1)).all fun i => (parseTok (cs.drop i)).isNone

/-- Parsed JSON value, as produced by response.json().  Numbers are
modelled as integers: no claim exercises a float body. -/
inductive JsonVal where
  | str (s : String)
  | num (n : Int)
  | bool (b : Bool)
  | null
  | arr (xs : List JsonVal)
  | obj (fields : List (String × JsonVal))

/-- Python repr of a string: the text between single quotes (the escaping
rules of repr for exotic contents are not exercised by any claim and are
not modelled). -/
def pyQuote (s : String) : String :=
  String.singleton quoteChar ++ s ++ String.singleton quoteChar

mutual

/-- Python repr of a JSON value: decimal for ints, True and False for
booleans, None for null, quoted text for strings, bracketed
comma-separated element reprs for lists and braced key-value reprs for
dicts. -/
def pyRepr : JsonVal → String
  | .str s => pyQuote s
  | .num n => toString n
  | .bool true => "True"
  | .bool false => "False"
  | .null => "None"
  | .arr xs => "[" ++ String.intercalate ", " (pyReprList xs) ++ "]"
  | .obj fs => "\x7b" ++ String.intercalate ", " (pyReprFields fs) ++ "\x7d"

/-- Reprs of the elements of a JSON list. -/
def pyReprList : List JsonVal → List String
  | [] => []
  | v :: vs => pyRepr v :: pyReprList vs

/-- Key-value reprs of the fields of a JSON dict. -/
def pyReprFields : List (String × JsonVal) → List String
  | [] => []
  | (k, v) :: fs => (pyQuote k ++ ": " ++ pyRepr v) :: pyReprFields fs

end

/-- Python str of a JSON value: a string is itself, everything else its
repr (spelled out for the scalar shapes). -/
def pyStr (v : JsonVal) : String :=
  match v with
  | .str s => s
  | .num n => toString n
  | .bool true => "True"
  | .bool false => "False"
  | .null => "None"
  | .arr xs => pyRepr (.arr xs)
  | .obj fs => pyRepr (.obj fs)

/-- One step of the body-path traversal value = value[key], with the key
always a string: a dict looks the key up (KeyError on a miss), while a
list, a string, a number, a boolean or None raises TypeError.  Every raise
is modelled as none, since the bare inner except of run_test catches them
all alike. -/
def getStep (v : JsonVal) (k : List Char) : Option JsonVal :=
  match v with
  | .obj fs => List.lookup (String.mk k) fs
  | _ => none

/-- The traversal loop for key in keys: value = value[key]. -/
def getPath (v : JsonVal) : List (List Char) → Option JsonVal
  | [] => some v
  | k :: ks =>
    match getStep v k with
    | some v' => getPath v' ks
    | none => none

/-- The response as seen by run_test: the status code, and the parsed JSON
body, with none standing for a body on which response.json() raises. -/
structure Response where
  status_code : Int
  body : Option JsonVal

/-- Outcome of one assertion: appended to the passed list, appended to the
failed list, or silently dropped (an assertion matching neither prefix
adds to neither list in the source). -/
inductive Outcome where
  | passedO (s : String)
  | failedO (s : String)
  | dropped
deriving DecidableEq

/-- Python str.startswith. -/
def strStarts (s pre : String) : Bool := pre.data.isPrefixOf s.data

/-- The first segment of the assertion split on the double equals sign:
Python assertion.split of two equals signs, index 0 (the split list is
never empty, so the default is never used). -/
def lhsOf (a : String) : List Char := (splitEqs a.data).headD []

/-- Index 1 of the assertion split on the double equals sign: the segment
between the first and the second occurrence, or none (IndexError) when
the separator does not occur. -/
def rhsOf (a : String) : Option (List Char) := (splitEqs a.data).get? 1

/-- The body-assertion path: first split segment, stripped, with every
occurrence of the substring b o d y dot removed, then split on dots. -/
def bodyPath (a : String) : List (List Char) :=
  splitDots (removeBodyDot (pyTrim (lhsOf a)))

/-- The expected value of a body assertion: the right-hand segment,
stripped of whitespace, then stripped of all surrounding quotes. -/
def expectedOf (rhs : List Char) : String := String.mk (stripQuotes (pyTrim rhs))

/-- Parse of the response body followed by the path traversal: none when
the body is not JSON or any traversal step raises. -/
def lookupBody (resp : Response) (a : String) : Option JsonVal :=
  resp.body.bind fun v => getPath v (bodyPath a)

/-- Evaluation of a single assertion, mirroring the loop body of run_test
(src/api_tester.py lines 176-202) including its exception flow: the outer
per-assertion handler turns an IndexError of the split (message: list
index out of range) or a ValueError of int() into a failed entry with an
error reason, while the bare inner handler of the body branch turns any
parse or traversal failure into the single coarse invalid-path reason. -/
def evalAssertion (resp : Response) (a : String) : Outcome :=
  if strStarts a "status_code" then
    match rhsOf a with
    | none => .failedO (a ++ " (error: list index out of range)")
    | some rhs =>
      match pyInt (pyTrim rhs) with
      | none =>
        .failedO (a ++ " (error: invalid literal for int() with base 10: " ++
          pyQuote (String.mk (pyTrim rhs)) ++ ")")
      | some n =>
        if resp.status_code = n then .passedO a
        else .failedO (a ++ " (got " ++ toString resp.status_code ++ ")")
  else if strStarts a "body." then
    match rhsOf a with
    | none => .failedO (a ++ " (error: list index out of range)")
    | some rhs =>
      match lookupBody resp a with
      | none => .failedO (a ++ " (invalid path or response not JSON)")
      | some v =>
        if pyStr v = expectedOf rhs then .passedO a
        else .failedO (a ++ " (got " ++ pyStr v ++ ")")
  else .dropped

/-- One iteration of the run_test loop over the accumulated result lists. -/
def stepRT (resp : Response) (acc : List String × List String) (a : String) :
    List String × List String :=
  match evalAssertion resp a with
  | .passedO s => (acc.1 ++ [s], acc.2)
  | .failedO s => (acc.1, acc.2 ++ [s])
  | .dropped => acc

/-- run_test of src/api_tester.py lines 172-204: fold the per-assertion
evaluation over the assertion list, appending to the passed and failed
lists in input order. -/
def run_test (resp : Response) (assertions : List String) :
    List String × List String :=
  assertions.foldl (stepRT resp) ([], [])

/-- The passed entry an assertion contributes, if any. -/
def passedOf (resp : Response) (a : String) : Option String :=
  match evalAssertion resp a with
  | .passedO s => some s
  | _ => none

/-- The failed entry an assertion contributes, if any. -/
def failedOf (resp : Response) (a : String) : Option String :=
  match evalAssertion resp a with
  | .failedO s => some s
  | _ => none

/-- takeWhile over a run of satisfying characters followed by a failing
one returns exactly the run. -/
lemma takeWhile_all_append (p : Char → Bool) (w : List Char) (c : Char)
    (xs : List Char) (hw : w.all p = true) (hc : p c = false) :
    (w ++ c :: xs).takeWhile p = w := by
  induction w with
  | nil => simp [List.takeWhile_cons, hc]
  | cons a w' ih =>
    simp only [List.all_cons, Bool.and_eq_true] at hw
    simp [List.takeWhile_cons, hw.1, ih hw.2]

/-- dropWhile over a run of satisfying characters followed by a failing
one returns the remainder from the failing character on. -/
lemma dropWhile_all_append (p : Char → Bool) (w : List Char) (c : Char)
    (xs : List Char) (hw : w.all p = true) (hc : p c = false) :
    (w ++ c :: xs).dropWhile p = c :: xs := by
  induction w with
  | nil => simp [List.dropWhile_cons, hc]
  | cons a w' ih =>
    simp only [List.all_cons, Bool.and_eq_true] at hw
    simp [List.dropWhile_cons, hw.1, ih hw.2]

/-- A well-formed placeholder token at the head of the input is matched by
the pattern, capturing its name, for any remainder. -/
lemma parseTok_token (w u : List Char) (hne : w ≠ []) (hw : w.all wordChar = true) :
    parseTok ('{' :: '{' :: (w ++ '}' :: '}' :: u)) = some (w, u) := by
  have hc : wordChar '}' = false := by decide
  have h1 : (w ++ '}' :: '}' :: u).takeWhile wordChar = w :=
    takeWhile_all_append wordChar w '}' ('}' :: u) hw hc
  have h2 : (w ++ '}' :: '}' :: u).dropWhile wordChar = '}' :: '}' :: u :=
    dropWhile_all_append wordChar w '}' ('}' :: u) hw hc
  simp [parseTok, h1, h2, hne]

/-- A successful pattern match consumes at least five characters. -/
lemma parseTok_some_length {cs w u : List Char}
    (h : parseTok cs = some (w, u)) : u.length + 5 ≤ cs.length := by
  unfold parseTok at h
  split at h
  case h_2 => exact absurd h (by simp)
  case h_1 t =>
    split at h
    case h_2 => exact absurd h (by simp)
    case h_1 u' heq =>
      split at h
      case isTrue => exact absurd h (by simp)
      case isFalse hne =>
        injection h with h'
        have hu : u' = u := congrArg Prod.snd h'
        have hsplit : t.takeWhile wordChar ++ t.dropWhile wordChar = t :=
          List.takeWhile_append_dropWhile wordChar t
        have hlen : (t.takeWhile wordChar).length + (t.dropWhile wordChar).length
            = t.length := by
          rw [← List.length_append, hsplit]
        have h1 : 0 < (t.takeWhile wordChar).length := List.length_pos.mpr hne
        rw [heq] at hlen
        subst hu
        simp only [List.length_cons] at hlen ⊢
        omega

/-- The fueled scan ignores the fuel on an empty input. -/
lemma substFuel_nil (env : List (String × String)) (f : Nat) :
    substFuel env f [] = [] := by
  cases f <;> rfl

/-- Any two sufficient fuels give the same scan result. -/
lemma substFuel_congr (env : List (String × String)) :
    ∀ (f g : Nat) (cs : List Char), cs.length ≤ f → cs.length ≤ g →
      substFuel env f cs = substFuel env g cs := by
  intro f
  induction f with
  | zero =>
    intro g cs h1 _
    have : cs = [] := List.length_eq_zero.mp (Nat.le_zero.mp h1)
    subst this
    rw [substFuel_nil, substFuel_nil]
  | succ f ih =>
    intro g cs h1 h2
    cases cs with
    | nil => rw [substFuel_nil, substFuel_nil]
    | cons c rest =>
      cases g with
      | zero => simp at h2
      | succ g' =>
        simp only [List.length_cons] at h1 h2
        simp only [substFuel]
        cases hp : parseTok (c :: rest) with
        | none =>
          simp only []
          exact congrArg (c :: ·) (ih g' rest (by omega) (by omega))
        | some wu =>
          obtain ⟨w, u⟩ := wu
          simp only []
          have hlen := parseTok_some_length hp
          simp only [List.length_cons] at hlen
          exact congrArg (envSub env w ++ ·) (ih g' u (by omega) (by omega))

/-- Defining equation of the scan at a non-matching position: the
character passes through and scanning continues with the tail. -/
lemma substList_cons_none (env : List (String × String)) (c : Char)
    (rest : List Char) (h : parseTok (c :: rest) = none) :
    substListChars env (c :: rest) = c :: substListChars env rest := by
  unfold substListChars
  simp only [List.length_cons, substFuel, h]

/-- Defining equation of the scan at a matching position: the token is
replaced and scanning continues after the match, never inside the
replacement. -/
lemma substList_cons_some (env : List (String × String)) (c : Char)
    (rest w u : List Char) (h : parseTok (c :: rest) = some (w, u)) :
    substListChars env (c :: rest) = envSub env w ++ substListChars env u := by
  unfold substListChars
  simp only [List.length_cons, substFuel, h]
  have hlen := parseTok_some_length h
  simp only [List.length_cons] at hlen
  exact congrArg (envSub env w ++ ·)
    (substFuel_congr env rest.length u.length u (by omega) (by omega))

/-- A string with no placeholder has none at its head. -/
lemma noPlaceholder_head {c : Char} {rest : List Char}
    (h : noPlaceholder (c :: rest) = true) : parseTok (c :: rest) = none := by
  have h0 := List.all_eq_true.mp h 0 (by simp)
  simpa [Option.isNone_iff_eq_none] using h0

/-- A string with no placeholder has none in its tail. -/
lemma noPlaceholder_tail {c : Char} {rest : List Char}
    (h : noPlaceholder (c :: rest) = true) : noPlaceholder rest = true := by
  rw [noPlaceholder, List.all_eq_true] at h ⊢
  intro i hi
  have hmem : i + 1 ∈ List.range ((c :: rest).length + 1) := by
    simp only [List.mem_range] at hi ⊢
    simp only [List.length_cons]
    omega
  have := h (i + 1) hmem
  simpa using this

/-- The scan is the identity on a string containing no placeholder. -/
lemma subst_noPlaceholder (env : List (String × String)) :
    ∀ cs : List Char, noPlaceholder cs = true → substListChars env cs = cs := by
  intro cs
  induction cs with
  | nil => intro _; rfl
  | cons c rest ih =>
    intro h
    rw [substList_cons_none env c rest (noPlaceholder_head h),
      ih (noPlaceholder_tail h)]

/-- The fold of run_test over any accumulator appends, in input order, the
passed entries and the failed entries the assertions contribute. -/
lemma run_test_go (resp : Response) :
    ∀ (as : List String) (p f : List String),
      as.foldl (stepRT resp) (p, f) =
        (p ++ as.filterMap (passedOf resp), f ++ as.filterMap (failedOf resp)) := by
  intro as
  induction as with
  | nil => intro p f; simp
  | cons a rest ih =>
    intro p f
    simp only [List.foldl_cons, List.filterMap_cons]
    cases h : evalAssertion resp a with
    | passedO s => simp [stepRT, h, passedOf, failedOf, ih, List.append_assoc]
    | failedO s => simp [stepRT, h, passedOf, failedOf, ih, List.append_assoc]
    | dropped => simp [stepRT, h, passedOf, failedOf, ih]

/-- run_test produces exactly the per-assertion passed entries and failed
entries, each list in input order. -/
lemma run_test_eq (resp : Response) (as : List String) :
    run_test resp as = (as.filterMap (passedOf resp), as.filterMap (failedOf resp)) := by
  unfold run_test
  simpa using run_test_go resp as [] []

/-- An assertion with the body prefix does not have the status_code
prefix: the two prefixes differ at their first character. -/
lemma strStarts_body_not_status {a : String} (h : strStarts a "body." = true) :
    strStarts a "status_code" = false := by
  unfold strStarts at h ⊢
  obtain ⟨d⟩ := a
  cases d with
  | nil =>
    rw [show "body.".data = ['b', 'o', 'd', 'y', '.'] from rfl] at h
    simp [List.isPrefixOf] at h
  | cons c rest =>
    rw [show "body.".data = ['b', 'o', 'd', 'y', '.'] from rfl] at h
    rw [show "status_code".data =
      ['s', 't', 'a', 't', 'u', 's', '_', 'c', 'o', 'd', 'e'] from rfl]
    simp only [List.isPrefixOf, Bool.and_eq_true, beq_iff_eq] at h
    obtain ⟨h1, _⟩ := h
    subst h1
    simp [List.isPrefixOf]

/-- status_code branch, missing right-hand side: the IndexError of the
subscript is caught by the per-assertion handler. -/
lemma eval_status_rhs_none (resp : Response) (a : String)
    (h1 : strStarts a "status_code" = true) (h2 : rhsOf a = none) :
    evalAssertion resp a = .failedO (a ++ " (error: list index out of range)") := by
  simp [evalAssertion, h1, h2]

/-- status_code branch, non-integer right-hand side: the ValueError of
int() is caught by the per-assertion handler. -/
lemma eval_status_int_none (resp : Response) (a : String) (rhs : List Char)
    (h1 : strStarts a "status_code" = true) (h2 : rhsOf a = some rhs)
    (h3 : pyInt (pyTrim rhs) = none) :
    evalAssertion resp a = .failedO (a ++
      " (error: invalid literal for int() with base 10: " ++
      pyQuote (String.mk (pyTrim rhs)) ++ ")") := by
  simp [evalAssertion, h1, h2, h3]

/-- status_code branch, integer right-hand side: exact integer equality
against the status code decides passed or failed with the got reason. -/
lemma eval_status_int_some (resp : Response) (a : String) (rhs : List Char)
    (n : Int) (h1 : strStarts a "status_code" = true) (h2 : rhsOf a = some rhs)
    (h3 : pyInt (pyTrim rhs) = some n) :
    evalAssertion resp a =
      if resp.status_code = n then .passedO a
      else .failedO (a ++ " (got " ++ toString resp.status_code ++ ")") := by
  simp only [evalAssertion, h1, if_pos, h2, h3]

/-- body branch, missing right-hand side: the IndexError of the subscript
occurs before the inner try and is caught by the per-assertion handler. -/
lemma eval_body_rhs_none (resp : Response) (a : String)
    (hb : strStarts a "body." = true) (h2 : rhsOf a = none) :
    evalAssertion resp a = .failedO (a ++ " (error: list index out of range)") := by
  have hs := strStarts_body_not_status hb
  simp [evalAssertion, hs, hb, h2]

/-- body branch, body parse failure or traversal failure: the bare inner
handler yields the single coarse invalid-path reason. -/
lemma eval_body_invalid (resp : Response) (a : String) (rhs : List Char)
    (hb : strStarts a "body." = true) (h2 : rhsOf a = some rhs)
    (h3 : lookupBody resp a = none) :
    evalAssertion resp a = .failedO (a ++ " (invalid path or response not JSON)") := by
  have hs := strStarts_body_not_status hb
  simp [evalAssertion, hs, hb, h2, h3]

/-- body branch, resolved value: stringified exact comparison decides
passed or failed with the got reason. -/
lemma eval_body_value (resp : Response) (a : String) (rhs : List Char)
    (v : JsonVal) (hb : strStarts a "body." = true) (h2 : rhsOf a = some rhs)
    (h3 : lookupBody resp a = some v) :
    evalAssertion resp a =
      if pyStr v = expectedOf rhs then .passedO a
      else .failedO (a ++ " (got " ++ pyStr v ++ ")") := by
  have hs := strStarts_body_not_status hb
  simp only [evalAssertion, hs, Bool.false_eq_true, if_false, hb, if_pos, h2, h3]

/-- An assertion with either recognized prefix always contributes an
outcome. -/
lemma eval_ne_dropped (resp : Response) (a : String)
    (h : strStarts a "status_code" = true ∨ strStarts a "body." = true) :
    evalAssertion resp a ≠ .dropped := by
  unfold evalAssertion
  rcases h with h | h
  · rw [if_pos h]
    split
    · simp
    · split
      · simp
      · split <;> simp
  · have hs := strStarts_body_not_status h
    rw [if_neg (by simp [hs]), if_pos h]
    split
    · simp
    · split
      · simp
      · split <;> simp

/-- An assertion is dropped exactly when it matches neither prefix. -/
lemma eval_dropped_iff (resp : Response) (a : String) :
    evalAssertion resp a = .dropped ↔
      (strStarts a "status_code" = false ∧ strStarts a "body." = false) := by
  constructor
  · intro h
    refine ⟨?_, ?_⟩
    · cases hst : strStarts a "status_code"
      · rfl
      · exact absurd h (eval_ne_dropped resp a (Or.inl hst))
    · cases hbd : strStarts a "body."
      · rfl
      · exact absurd h (eval_ne_dropped resp a (Or.inr hbd))
  · intro ⟨h1, h2⟩
    unfold evalAssertion
    rw [if_neg (by simp [h1]), if_neg (by simp [h2])]

/-- The Python split never yields an empty list of segments. -/
lemma splitEqs_ne_nil (cs : List Char) : splitEqs cs ≠ [] := by
  match cs with
  | [] => simp [splitEqs]
  | [c] => simp [splitEqs]
  | c :: d :: rest =>
    simp only [splitEqs]
    split
    · simp
    · split <;> simp

/-- One-step defining equation of the split on a list of two or more
characters. -/
lemma splitEqs_cons_cons (c d : Char) (rest : List Char) :
    splitEqs (c :: d :: rest) =
      if c = '=' ∧ d = '=' then [] :: splitEqs rest
      else
        match splitEqs (d :: rest) with
        | g :: gs => (c :: g) :: gs
        | [] => [[c]] := rfl

/-- Splitting a string that begins with a separator-free segment followed
by the separator yields that segment and then the split of the rest.  The
side conditions say the segment contains no separator occurrence, also not
one straddling the boundary. -/
lemma splitEqs_boundary :
    ∀ (l m : List Char), splitEqs l = [l] → l.getLast? ≠ some '=' →
      splitEqs (l ++ '=' :: '=' :: m) = l :: splitEqs m := by
  intro l
  induction l with
  | nil =>
    intro m _ _
    simp only [List.nil_append]
    rw [splitEqs_cons_cons, if_pos ⟨rfl, rfl⟩]
  | cons c l' ih =>
    intro m hsp hlast
    cases l' with
    | nil =>
      have hc : c ≠ '=' := by
        intro hc
        subst hc
        exact hlast rfl
      simp only [List.cons_append, List.nil_append]
      rw [splitEqs_cons_cons, if_neg (by intro hcd; exact hc hcd.1)]
      rw [show splitEqs ('=' :: '=' :: m) = [] :: splitEqs m from by
        rw [splitEqs_cons_cons, if_pos ⟨rfl, rfl⟩]]
    | cons d l'' =>
      have hcd : ¬(c = '=' ∧ d = '=') := by
        intro ⟨hc, hd⟩
        subst hc
        subst hd
        rw [splitEqs_cons_cons, if_pos ⟨rfl, rfl⟩] at hsp
        have := congrArg List.head? hsp
        simp at this
      have htail : splitEqs (d :: l'') = [d :: l''] := by
        rcases hg : splitEqs (d :: l'') with _ | ⟨g, gs⟩
        · exact absurd hg (splitEqs_ne_nil _)
        · rw [splitEqs_cons_cons, if_neg hcd, hg] at hsp
          simp only [List.cons.injEq, true_and] at hsp
          obtain ⟨e3, e2⟩ := hsp
          rw [e3, e2]
      have hlast' : (d :: l'').getLast? ≠ some '=' := by
        rwa [List.getLast?_cons_cons] at hlast
      have hIH := ih m htail hlast'
      simp only [List.cons_append] at hIH ⊢
      rw [splitEqs_cons_cons, if_neg hcd, hIH]

/-- Stripping the quote set removes every leading and trailing quote
character, however many, and nothing of a core that neither starts nor
ends with a quote character. -/
lemma strip_layers (pre mid suf : List Char)
    (hpre : pre.all isQuoteChar = true) (hsuf : suf.all isQuoteChar = true)
    (hhead : ∀ c, mid.head? = some c → isQuoteChar c = false)
    (hlast : ∀ c, mid.getLast? = some c → isQuoteChar c = false) :
    stripQuotes (pre ++ (mid ++ suf)) = mid := by
  unfold stripQuotes
  cases mid with
  | nil =>
    have h1 : (pre ++ ([] ++ suf)).dropWhile isQuoteChar = [] := by
      rw [List.dropWhile_eq_nil_iff]
      intro x hx
      simp only [List.nil_append, List.mem_append] at hx
      rcases hx with hx | hx
      · exact List.all_eq_true.mp hpre x hx
      · exact List.all_eq_true.mp hsuf x hx
    rw [h1]
    rfl
  | cons c mid' =>
    have hc : isQuoteChar c = false := hhead c rfl
    have h1 : (pre ++ ((c :: mid') ++ suf)).dropWhile isQuoteChar =
        (c :: mid') ++ suf := by
      rw [show (c :: mid') ++ suf = c :: (mid' ++ suf) from rfl]
      exact dropWhile_all_append isQuoteChar pre c (mid' ++ suf) hpre hc
    rw [h1]
    obtain ⟨z, w, hrev⟩ : ∃ z w, (c :: mid').reverse = z :: w := by
      rcases hr : (c :: mid').reverse with _ | ⟨z, w⟩
      · exact absurd (List.reverse_eq_nil_iff.mp hr) (by simp)
      · exact ⟨z, w, rfl⟩
    have hz : isQuoteChar z = false := by
      apply hlast
      rw [← List.head?_reverse, hrev]
      rfl
    rw [List.reverse_append]
    have h2 : (suf.reverse ++ (c :: mid').reverse).dropWhile isQuoteChar =
        (c :: mid').reverse := by
      rw [hrev]
      exact dropWhile_all_append isQuoteChar suf.reverse z w
        (by simpa using hsuf) hz
    rw [h2, List.reverse_reverse]

/-- run_test distributes over concatenation of the assertion batch: each
list of results of the combined batch is the concatenation of the lists of
the two halves, so no assertion of the first half aborts the second. -/
lemma run_test_append (resp : Response) (as bs : List String) :
    run_test resp (as ++ bs) =
      ((run_test resp as).1 ++ (run_test resp bs).1,
       (run_test resp as).2 ++ (run_test resp bs).2) := by
  simp [run_test_eq, List.filterMap_append]

/-- C1, counterexample: the evaluator is not total.  An assertion matching
neither the status_code prefix nor the body prefix is silently dropped,
appearing in neither output list, so one input assertion yields zero
outcomes. -/
theorem unrecognized_assertion_dropped :
    (run_test ⟨404, none⟩ ["response_ok == 1"]).1.length +
      (run_test ⟨404, none⟩ ["response_ok == 1"]).2.length ≠
      (["response_ok == 1"] : List String).length := by
  decide

/-- C1, amended: run_test returns exactly the per-assertion passed entries
and failed entries as two order-preserving sublists of the input, each
assertion contributing at most one outcome to one list; an assertion is
dropped (contributes to neither list) exactly when it matches neither the
status_code prefix nor the body prefix. -/
theorem evaluator_total_on_recognized :
    (∀ (resp : Response) (as : List String),
      run_test resp as =
        (as.filterMap (passedOf resp), as.filterMap (failedOf resp))) ∧
    (∀ (resp : Response) (a : String),
      evalAssertion resp a = Outcome.dropped ↔
        (strStarts a "status_code" = false ∧ strStarts a "body." = false)) :=
  ⟨run_test_eq, eval_dropped_iff⟩

/-- C2: substitution is non-recursive.  A bound placeholder is replaced by
the environment value verbatim, whatever that value contains, so a value
that is itself a placeholder token is never re-expanded; in particular an
environment binding a to the token for b and b to x rewrites the token for
a into the token for b, not into x. -/
theorem substitution_non_recursive :
    (∀ (env : List (String × String)) (w v : String),
      w.data ≠ [] → w.data.all wordChar = true → List.lookup w env = some v →
      substitute_vars env ("\x7b\x7b" ++ w ++ "\x7d\x7d") = v) ∧
    (∀ env : List (String × String),
      List.lookup "a" env = some "\x7b\x7bb\x7d\x7d" →
      substitute_vars env "\x7b\x7ba\x7d\x7d" = "\x7b\x7bb\x7d\x7d") := by
  have key : ∀ (env : List (String × String)) (w v : String),
      w.data ≠ [] → w.data.all wordChar = true → List.lookup w env = some v →
      substitute_vars env ("\x7b\x7b" ++ w ++ "\x7d\x7d") = v := by
    intro env w v hne hw hl
    unfold substitute_vars
    have hdata : ("\x7b\x7b" ++ w ++ "\x7d\x7d").data
        = '{' :: '{' :: (w.data ++ '}' :: '}' :: []) := by
      rw [String.data_append, String.data_append]
      show ['{', '{'] ++ w.data ++ ['}', '}'] = _
      simp
    rw [hdata]
    rw [substList_cons_some env '{' ('{' :: (w.data ++ '}' :: '}' :: [])) w.data []
      (parseTok_token w.data [] hne hw)]
    rw [show substListChars env [] = [] from rfl, List.append_nil]
    unfold envSub
    rw [show String.mk w.data = w from by cases w; rfl]
    rw [hl]
  exact ⟨key, fun env hl =>
    key env "a" "\x7b\x7bb\x7d\x7d" (by decide) (by decide) hl⟩

/-- C2, witness at the concrete environment of the claim: the substituted
value is the token for b, untouched even though b is bound to x. -/
theorem substitution_non_recursive_witness :
    substitute_vars [("a", "\x7b\x7bb\x7d\x7d"), ("b", "x")] "\x7b\x7ba\x7d\x7d"
      = "\x7b\x7bb\x7d\x7d" :=
  substitution_non_recursive.2 [("a", "\x7b\x7bb\x7d\x7d"), ("b", "x")] (by decide)

/-- C3: the four defining properties of the substitution scan.  A string
with no placeholder match anywhere (including malformed near-tokens) is
returned unchanged; a well-formed token over a bound name is replaced by
the value and scanning continues after the token; a token over an unbound
name is left verbatim and scanning continues after it; a character not
starting a match passes through unchanged. -/
theorem placeholder_substitution_semantics :
    (∀ (env : List (String × String)) (cs : List Char),
      noPlaceholder cs = true → substListChars env cs = cs) ∧
    (∀ (env : List (String × String)) (w u : List Char) (v : String),
      w ≠ [] → w.all wordChar = true → List.lookup (String.mk w) env = some v →
      substListChars env ('{' :: '{' :: (w ++ '}' :: '}' :: u)) =
        v.data ++ substListChars env u) ∧
    (∀ (env : List (String × String)) (w u : List Char),
      w ≠ [] → w.all wordChar = true → List.lookup (String.mk w) env = none →
      substListChars env ('{' :: '{' :: (w ++ '}' :: '}' :: u)) =
        '{' :: '{' :: (w ++ '}' :: '}' :: substListChars env u)) ∧
    (∀ (env : List (String × String)) (c : Char) (cs : List Char),
      parseTok (c :: cs) = none →
      substListChars env (c :: cs) = c :: substListChars env cs) := by
  refine ⟨subst_noPlaceholder, ?_, ?_, fun env c cs h => substList_cons_none env c cs h⟩
  · intro env w u v hne hw hl
    rw [substList_cons_some env '{' ('{' :: (w ++ '}' :: '}' :: u)) w u
      (parseTok_token w u hne hw)]
    unfold envSub
    rw [hl]
  · intro env w u hne hw hl
    rw [substList_cons_some env '{' ('{' :: (w ++ '}' :: '}' :: u)) w u
      (parseTok_token w u hne hw)]
    unfold envSub
    rw [hl]
    simp

/-- C3, witness: a bound token at the head of the input is replaced, and a
string whose only brace group has a non-word character inside is returned
verbatim. -/
theorem placeholder_substitution_semantics_witness :
    substListChars [("a", "x")] ('{' :: '{' :: ("a".data ++ '}' :: '}' :: "!".data))
      = "x".data ++ substListChars [("a", "x")] "!".data ∧
    substListChars [] ("x\x7b\x7ba-b\x7d\x7dy".data) = "x\x7b\x7ba-b\x7d\x7dy".data :=
  ⟨placeholder_substitution_semantics.2.1 [("a", "x")] "a".data "!".data "x"
      (by decide) (by decide) (by decide),
    placeholder_substitution_semantics.1 [] _ (by decide)⟩

/-- C4: a status_code assertion whose right-hand segment parses as an
integer is decided by exact integer equality with the status code, the
original assertion string passing, or failing with the got reason carrying
the actual status code; in particular status 404 against the 200 assertion
fails with got 404. -/
theorem status_assertion_exact_equality :
    (∀ (resp : Response) (a : String) (rhs : List Char) (n : Int),
      strStarts a "status_code" = true → rhsOf a = some rhs →
      pyInt (pyTrim rhs) = some n →
      evalAssertion resp a =
        if resp.status_code = n then Outcome.passedO a
        else Outcome.failedO (a ++ " (got " ++ toString resp.status_code ++ ")")) ∧
    run_test ⟨404, none⟩ ["status_code == 200"] =
      ([], ["status_code == 200 (got 404)"]) :=
  ⟨fun resp a rhs n h1 h2 h3 => eval_status_int_some resp a rhs n h1 h2 h3,
    by decide⟩

/-- C4, witness: status 200 against the 200 assertion passes. -/
theorem status_assertion_exact_equality_witness :
    evalAssertion ⟨200, none⟩ "status_code == 200" =
      Outcome.passedO "status_code == 200" := by
  have h := status_assertion_exact_equality.1 ⟨200, none⟩ "status_code == 200"
    (" 200".data) 200 (by decide) (by decide) (by decide)
  simpa using h

/-- C5: a body assertion (with a right-hand side present) whose body fails
to parse as JSON, or whose path traversal fails at any step, is failed
with the single coarse invalid-path reason; the two causes produce the
very same reason string, so the distinction is never surfaced. -/
theorem body_assertion_coarse_failure :
    ∀ (resp : Response) (a : String) (rhs : List Char),
      strStarts a "body." = true → rhsOf a = some rhs →
      lookupBody resp a = none →
      evalAssertion resp a =
        Outcome.failedO (a ++ " (invalid path or response not JSON)") :=
  fun resp a rhs hb h2 h3 => eval_body_invalid resp a rhs hb h2 h3

/-- C5, witness: a non-JSON body fails a body assertion with the coarse
reason. -/
theorem body_assertion_coarse_failure_witness :
    evalAssertion ⟨200, none⟩ ("body.x == " ++ pyQuote "y") =
      Outcome.failedO (("body.x == " ++ pyQuote "y") ++
        " (invalid path or response not JSON)") :=
  body_assertion_coarse_failure ⟨200, none⟩ ("body.x == " ++ pyQuote "y")
    ((" " ++ pyQuote "y").data) (by decide) (by decide) (by rfl)

/-- C6: a body assertion whose path resolves compares the Python
stringification of the resolved value with the expected string for exact
equality, passing the original assertion or failing with the got reason
carrying the stringified value; in particular the integer 42 under
user.id stringifies to the digits 42 and matches them. -/
theorem body_assertion_stringified_comparison :
    (∀ (resp : Response) (a : String) (rhs : List Char) (v : JsonVal),
      strStarts a "body." = true → rhsOf a = some rhs →
      lookupBody resp a = some v →
      evalAssertion resp a =
        if pyStr v = expectedOf rhs then Outcome.passedO a
        else Outcome.failedO (a ++ " (got " ++ pyStr v ++ ")")) ∧
    run_test ⟨200, some (JsonVal.obj [("user", JsonVal.obj [("id", JsonVal.num 42)])])⟩
        ["body.user.id == " ++ pyQuote "42"] =
      (["body.user.id == " ++ pyQuote "42"], []) :=
  ⟨fun resp a rhs v hb h2 h3 => eval_body_value resp a rhs v hb h2 h3,
    by decide⟩

/-- C6, witness: the resolved integer 7 stringifies to the digit 7 and the
assertion passes. -/
theorem body_assertion_stringified_comparison_witness :
    evalAssertion ⟨200, some (JsonVal.obj [("id", JsonVal.num 7)])⟩
        ("body.id == " ++ pyQuote "7") =
      Outcome.passedO ("body.id == " ++ pyQuote "7") := by
  have h := body_assertion_stringified_comparison.1
    ⟨200, some (JsonVal.obj [("id", JsonVal.num 7)])⟩
    ("body.id == " ++ pyQuote "7") ((" " ++ pyQuote "7").data) (JsonVal.num 7)
    (by decide) (by decide) (by rfl)
  rw [if_pos (by decide)] at h
  exact h

/-- C7, counterexample: the expected value is not the entire remainder
after the first separator.  With value a==b under key k, the assertion
comparing k with the quoted literal a==b would pass were the full
remainder used, but the code takes only the segment between the first and
second separator, yielding the expected value a, so the assertion fails;
and a path containing the letters body followed by a dot mid-path is
mangled by the replace-all, so the traversal follows a shorter path than
the prefix-stripped one. -/
theorem rhs_not_full_remainder :
    run_test ⟨200, some (JsonVal.obj [("k", JsonVal.str "a==b")])⟩
        ["body.k == " ++ pyQuote "a==b"] =
      ([], [("body.k == " ++ pyQuote "a==b") ++ " (got a==b)"]) ∧
    run_test ⟨200, some (JsonVal.obj [("a", JsonVal.obj [("b", JsonVal.num 1)])])⟩
        ["body.a.body.b == " ++ pyQuote "1"] =
      (["body.a.body.b == " ++ pyQuote "1"], []) :=
  ⟨by decide, by decide⟩

/-- C7, amended: the assertion is split on every occurrence of the
double-equals separator; the right-hand side the evaluator uses is the
segment between the first and the second occurrence, discarding anything
after a second occurrence; and the path is the first segment with every
occurrence of the five-character substring body-dot removed, not only a
leading prefix. -/
theorem assertion_parse_amended :
    (∀ (l m r : List Char), splitEqs l = [l] → l.getLast? ≠ some '=' →
      splitEqs m = [m] → m.getLast? ≠ some '=' →
      rhsOf (String.mk (l ++ '=' :: '=' :: (m ++ '=' :: '=' :: r))) = some m) ∧
    removeBodyDot ("body.a.body.b".data) = "a.b".data := by
  constructor
  · intro l m r hl hl2 hm hm2
    unfold rhsOf
    rw [show (String.mk (l ++ '=' :: '=' :: (m ++ '=' :: '=' :: r))).data
      = l ++ '=' :: '=' :: (m ++ '=' :: '=' :: r) from rfl]
    rw [splitEqs_boundary l _ hl hl2, splitEqs_boundary m r hm hm2]
    rfl
  · decide

/-- C7, amended witness: with separator-free segments x, y, z the
right-hand side is y, the segment between the first two separators, and z
is discarded. -/
theorem assertion_parse_amended_witness :
    rhsOf (String.mk ("x".data ++ '=' :: '=' :: ("y".data ++ '=' :: '=' :: "z".data)))
      = some "y".data :=
  assertion_parse_amended.1 "x".data "y".data "z".data
    (by decide) (by decide) (by decide) (by decide)

/-- C8, counterexample: quote stripping is not limited to one layer.  With
the singly quoted string x as the stored value, the doubly quoted literal
would keep one layer of quotes and pass were exactly one layer stripped,
but the code strips every surrounding quote, yielding the bare x, so the
assertion fails with the got reason showing the singly quoted value. -/
theorem quote_strip_not_single_layer :
    run_test ⟨200, some (JsonVal.obj [("k", JsonVal.str (pyQuote "x"))])⟩
        ["body.k == " ++ pyQuote (pyQuote "x")] =
      ([], [("body.k == " ++ pyQuote (pyQuote "x")) ++ " (got " ++ pyQuote "x" ++ ")"]) := by
  decide

/-- C8, amended: the expected value is the right-hand segment, trimmed,
then stripped of every leading and every trailing quote character, single
or double in any mixture, however many layers; a core neither starting nor
ending with a quote character is kept whole. -/
theorem quote_strip_all_layers :
    (∀ (pre mid suf : List Char),
      pre.all isQuoteChar = true → suf.all isQuoteChar = true →
      (∀ c, mid.head? = some c → isQuoteChar c = false) →
      (∀ c, mid.getLast? = some c → isQuoteChar c = false) →
      stripQuotes (pre ++ (mid ++ suf)) = mid) ∧
    expectedOf ((" " ++ pyQuote (pyQuote "x")).data) = "x" :=
  ⟨strip_layers, by decide⟩

/-- C8, amended witness: two leading and one trailing double quote are all
removed around the core x. -/
theorem quote_strip_all_layers_witness :
    stripQuotes (['"', '"'] ++ ("x".data ++ ['"'])) = "x".data := by
  apply quote_strip_all_layers.1
  · decide
  · decide
  · intro c hc
    rw [show ("x".data : List Char).head? = some 'x' from rfl] at hc
    injection hc with h
    rw [← h]
    decide
  · intro c hc
    rw [show ("x".data : List Char).getLast? = some 'x' from rfl] at hc
    injection hc with h
    rw [← h]
    decide

/-- C9, counterexample: a numeric path segment applied to a non-indexable
value is not recorded with the error reason.  The TypeError it raises is
caught by the inner bare handler of the body branch, so the assertion is
failed with the coarse invalid-path reason instead. -/
theorem traversal_error_reason :
    run_test ⟨200, some (JsonVal.obj [("a", JsonVal.num 5)])⟩
        ["body.a.0 == " ++ pyQuote "1"] =
      ([], [("body.a.0 == " ++ pyQuote "1") ++ " (invalid path or response not JSON)"]) := by
  decide

/-- C9, amended: exceptions raised while parsing an assertion, namely the
IndexError of a missing right-hand side in either branch and the
ValueError of a non-integer status_code right-hand side, are caught by the
per-assertion handler and recorded as failed with the error reason
carrying the message; exceptions during body parsing and traversal are
instead absorbed by the inner handler into the coarse invalid-path reason;
and in all cases evaluation of the remaining assertions continues, the
results of a concatenated batch being the concatenations of the results
of its halves. -/
theorem exception_handling_amended :
    (∀ (resp : Response) (a : String),
      strStarts a "status_code" = true → rhsOf a = none →
      evalAssertion resp a =
        Outcome.failedO (a ++ " (error: list index out of range)")) ∧
    (∀ (resp : Response) (a : String) (rhs : List Char),
      strStarts a "status_code" = true → rhsOf a = some rhs →
      pyInt (pyTrim rhs) = none →
      evalAssertion resp a = Outcome.failedO (a ++
        " (error: invalid literal for int() with base 10: " ++
        pyQuote (String.mk (pyTrim rhs)) ++ ")")) ∧
    (∀ (resp : Response) (a : String),
      strStarts a "body." = true → rhsOf a = none →
      evalAssertion resp a =
        Outcome.failedO (a ++ " (error: list index out of range)")) ∧
    (∀ (resp : Response) (as bs : List String),
      run_test resp (as ++ bs) =
        ((run_test resp as).1 ++ (run_test resp bs).1,
         (run_test resp as).2 ++ (run_test resp bs).2)) :=
  ⟨eval_status_rhs_none, eval_status_int_none, eval_body_rhs_none, run_test_append⟩

/-- C9, amended witness: a non-integer status_code right-hand side fails
with the error reason carrying the int() message. -/
theorem exception_handling_amended_witness :
    evalAssertion ⟨200, none⟩ "status_code == abc" =
      Outcome.failedO ("status_code == abc" ++
        " (error: invalid literal for int() with base 10: " ++
        pyQuote (String.mk (pyTrim (" abc".data))) ++ ")") :=
  exception_handling_amended.2.1 ⟨200, none⟩ "status_code == abc" (" abc".data)
    (by decide) (by decide) (by decide)

/-- C10: array elements are never reachable.  Applying any path segment to
an array value fails the traversal step, because the segment is applied as
a string key and a Python list rejects string subscripts; the failure is
absorbed into the coarse invalid-path reason rather than escaping, so the
evaluator never raises; in particular a numeric segment over an array
fails that way. -/
theorem array_elements_unreachable :
    (∀ (xs : List JsonVal) (k : List Char) (ks : List (List Char)),
      getPath (JsonVal.arr xs) (k :: ks) = none) ∧
    (∀ (resp : Response) (a : String) (rhs : List Char),
      strStarts a "body." = true → rhsOf a = some rhs →
      lookupBody resp a = none →
      evalAssertion resp a =
        Outcome.failedO (a ++ " (invalid path or response not JSON)")) ∧
    run_test ⟨200, some (JsonVal.obj [("items", JsonVal.arr [JsonVal.num 1])])⟩
        ["body.items.0 == " ++ pyQuote "1"] =
      ([], [("body.items.0 == " ++ pyQuote "1") ++ " (invalid path or response not JSON)"]) := by
  refine ⟨?_, fun resp a rhs hb h2 h3 => eval_body_invalid resp a rhs hb h2 h3, by decide⟩
  intro xs k ks
  simp [getPath, getStep]

/-- C10, witness: a numeric segment applied directly to an array body is
failed with the coarse invalid-path reason. -/
theorem array_elements_unreachable_witness :
    evalAssertion ⟨200, some (JsonVal.arr [JsonVal.num 1])⟩ ("body.0 == " ++ pyQuote "1")
      = Outcome.failedO (("body.0 == " ++ pyQuote "1") ++
        " (invalid path or response not JSON)") :=
  array_elements_unreachable.2.1 ⟨200, some (JsonVal.arr [JsonVal.num 1])⟩
    ("body.0 == " ++ pyQuote "1") ((" " ++ pyQuote "1").data)
    (by decide) (by decide) (by rfl)
